import Mathlib

/-!
Verification of the registry-search crawl engine and UI state model.

The definitions below are shallow embeddings of the Rust sources:
`src/lib.rs` (value stringification), `src/root.rs` (hive identifiers),
`src/search_term_tracker.rs` (search-term set and cursor), and
`src/worker_manager.rs` (work-item processing and the supervisor loop).
Bytes are modelled as `Nat` (each < 256), registry strings as Lean
`String`, the `BTreeSet` of search terms as a sorted `List String`, and
the concurrent engine as a labelled transition system.
-/

set_option maxRecDepth 4000

/-- Lowercasing, modelling Rust `str::to_lowercase` restricted to the
default one-character-to-one-character mapping (the sources only rely on
default lowercase; see spec non-goals). -/
def to_lowercase (s : String) : String :=
  ⟨s.data.map Char.toLower⟩

/-- Substring test, modelling Rust `str::contains` for string patterns.
For valid UTF-8, byte-level infix coincides with character-level infix. -/
def str_contains (hay needle : String) : Bool :=
  decide (needle.data <:+: hay.data)

/-- Strict UTF-8 decoding to characters, modelling `std::str::from_utf8`:
rejects overlong encodings, surrogates and code points above U+10FFFF. -/
def utf8_decode_chars : List Nat → Option (List Char)
  | [] => some []
  | b :: rest =>
    if b < 0x80 then
      (utf8_decode_chars rest).map (fun cs => Char.ofNat b :: cs)
    else if b < 0xC2 then
      none
    else if b < 0xE0 then
      match rest with
      | [] => none
      | b1 :: rest1 =>
        if 0x80 ≤ b1 ∧ b1 < 0xC0 then
          (utf8_decode_chars rest1).map
            (fun cs => Char.ofNat ((b - 0xC0) * 0x40 + (b1 - 0x80)) :: cs)
        else none
    else if b < 0xF0 then
      match rest with
      | b1 :: b2 :: rest2 =>
        if ((if b = 0xE0 then 0xA0 else 0x80) ≤ b1 ∧
            b1 < (if b = 0xED then 0xA0 else 0xC0)) ∧
           (0x80 ≤ b2 ∧ b2 < 0xC0) then
          (utf8_decode_chars rest2).map
            (fun cs =>
              Char.ofNat ((b - 0xE0) * 0x1000 + (b1 - 0x80) * 0x40 + (b2 - 0x80)) :: cs)
        else none
      | _ => none
    else if b < 0xF5 then
      match rest with
      | b1 :: b2 :: b3 :: rest3 =>
        if ((if b = 0xF0 then 0x90 else 0x80) ≤ b1 ∧
            b1 < (if b = 0xF4 then 0x90 else 0xC0)) ∧
           (0x80 ≤ b2 ∧ b2 < 0xC0) ∧ (0x80 ≤ b3 ∧ b3 < 0xC0) then
          (utf8_decode_chars rest3).map
            (fun cs =>
              Char.ofNat ((b - 0xF0) * 0x40000 + (b1 - 0x80) * 0x1000 +
                (b2 - 0x80) * 0x40 + (b3 - 0x80)) :: cs)
        else none
      | _ => none
    else none

/-- Strict UTF-8 decoding to a string, modelling `std::str::from_utf8(..).ok()`. -/
def from_utf8 (bytes : List Nat) : Option String :=
  (utf8_decode_chars bytes).map (fun cs => ⟨cs⟩)

/-- The replacement character U+FFFD emitted by lossy decoding. -/
def replacement_char : Char := Char.ofNat 0xFFFD

/-- Lossy UTF-8 decoding, modelling `String::from_utf8_lossy`: each
maximal invalid subpart becomes one U+FFFD. -/
def utf8_lossy_chars : List Nat → List Char
  | [] => []
  | b :: rest =>
    if b < 0x80 then
      Char.ofNat b :: utf8_lossy_chars rest
    else if b < 0xC2 then
      replacement_char :: utf8_lossy_chars rest
    else if b < 0xE0 then
      match rest with
      | [] => [replacement_char]
      | b1 :: rest1 =>
        if 0x80 ≤ b1 ∧ b1 < 0xC0 then
          Char.ofNat ((b - 0xC0) * 0x40 + (b1 - 0x80)) :: utf8_lossy_chars rest1
        else replacement_char :: utf8_lossy_chars (b1 :: rest1)
    else if b < 0xF0 then
      match rest with
      | [] => [replacement_char]
      | b1 :: rest1 =>
        if (if b = 0xE0 then 0xA0 else 0x80) ≤ b1 ∧
           b1 < (if b = 0xED then 0xA0 else 0xC0) then
          match rest1 with
          | [] => [replacement_char]
          | b2 :: rest2 =>
            if 0x80 ≤ b2 ∧ b2 < 0xC0 then
              Char.ofNat ((b - 0xE0) * 0x1000 + (b1 - 0x80) * 0x40 + (b2 - 0x80)) ::
                utf8_lossy_chars rest2
            else replacement_char :: utf8_lossy_chars (b2 :: rest2)
        else replacement_char :: utf8_lossy_chars (b1 :: rest1)
    else if b < 0xF5 then
      match rest with
      | [] => [replacement_char]
      | b1 :: rest1 =>
        if (if b = 0xF0 then 0x90 else 0x80) ≤ b1 ∧
           b1 < (if b = 0xF4 then 0x90 else 0xC0) then
          match rest1 with
          | [] => [replacement_char]
          | b2 :: rest2 =>
            if 0x80 ≤ b2 ∧ b2 < 0xC0 then
              match rest2 with
              | [] => [replacement_char]
              | b3 :: rest3 =>
                if 0x80 ≤ b3 ∧ b3 < 0xC0 then
                  Char.ofNat ((b - 0xF0) * 0x40000 + (b1 - 0x80) * 0x1000 +
                    (b2 - 0x80) * 0x40 + (b3 - 0x80)) :: utf8_lossy_chars rest3
                else replacement_char :: utf8_lossy_chars (b3 :: rest3)
            else replacement_char :: utf8_lossy_chars (b2 :: rest2)
        else replacement_char :: utf8_lossy_chars (b1 :: rest1)
    else replacement_char :: utf8_lossy_chars rest
termination_by l => l.length
decreasing_by all_goals simp [List.length] <;> omega

/-- Lossy UTF-8 decoding to a string, modelling
`String::from_utf8_lossy(..).to_string()`. -/
def from_utf8_lossy (bytes : List Nat) : String :=
  ⟨utf8_lossy_chars bytes⟩

/-- Registry value kinds, from `winreg::enums::RegType` as used in `src/lib.rs`. -/
inductive RegType
  | REG_NONE
  | REG_SZ
  | REG_EXPAND_SZ
  | REG_BINARY
  | REG_DWORD
  | REG_DWORD_BIG_ENDIAN
  | REG_LINK
  | REG_MULTI_SZ
  | REG_RESOURCE_LIST
  | REG_FULL_RESOURCE_DESCRIPTOR
  | REG_RESOURCE_REQUIREMENTS_LIST
  | REG_QWORD
deriving DecidableEq

/-- Rendering of a `RegType` by the Rust `Debug` formatter, used in the
result line `({:?})` of `feed_queue_and_process_values`. -/
def RegType.debugStr : RegType → String
  | .REG_NONE => "REG_NONE"
  | .REG_SZ => "REG_SZ"
  | .REG_EXPAND_SZ => "REG_EXPAND_SZ"
  | .REG_BINARY => "REG_BINARY"
  | .REG_DWORD => "REG_DWORD"
  | .REG_DWORD_BIG_ENDIAN => "REG_DWORD_BIG_ENDIAN"
  | .REG_LINK => "REG_LINK"
  | .REG_MULTI_SZ => "REG_MULTI_SZ"
  | .REG_RESOURCE_LIST => "REG_RESOURCE_LIST"
  | .REG_FULL_RESOURCE_DESCRIPTOR => "REG_FULL_RESOURCE_DESCRIPTOR"
  | .REG_RESOURCE_REQUIREMENTS_LIST => "REG_RESOURCE_REQUIREMENTS_LIST"
  | .REG_QWORD => "REG_QWORD"

/-- A registry value: a kind together with its raw byte blob
(`winreg::RegValue`); each byte is a `Nat` below 256. -/
structure RegValue where
  vtype : RegType
  bytes : List Nat
deriving DecidableEq

/-- Stand-in for the external `winreg` `Display` implementation reached by
the `REG_LINK` / `REG_FULL_RESOURCE_DESCRIPTOR` /
`REG_RESOURCE_REQUIREMENTS_LIST` branch of `alt_reg_value_to_string`
(spec: platform default stringification, out of scope). No claim depends
on its output. -/
def winreg_display (_ : RegValue) : String :=
  "winreg Display output"

/-- Embedding of `alt_reg_value_to_string` from `src/lib.rs`. The numeric
branches model `try_into` on a `[u8; 4]` / `[u8; 8]` (exact-length check)
followed by `from_le_bytes` / `from_be_bytes` and decimal display; note
the `REG_QWORD` failure branch returns the string "Invalid REG_DWORD"
exactly as the source does. -/
def alt_reg_value_to_string (reg_value : RegValue) : String :=
  match reg_value.vtype with
  | .REG_SZ | .REG_EXPAND_SZ => from_utf8_lossy reg_value.bytes
  | .REG_BINARY => "BIN_LENGTH: " ++ toString reg_value.bytes.length
  | .REG_DWORD =>
    match reg_value.bytes with
    | [b0, b1, b2, b3] =>
      toString (b0 + b1 * 0x100 + b2 * 0x10000 + b3 * 0x1000000)
    | _ => "Invalid REG_DWORD"
  | .REG_DWORD_BIG_ENDIAN =>
    match reg_value.bytes with
    | [b0, b1, b2, b3] =>
      toString (b3 + b2 * 0x100 + b1 * 0x10000 + b0 * 0x1000000)
    | _ => "Invalid REG_DWORD_BIG_ENDIAN"
  | .REG_QWORD =>
    match reg_value.bytes with
    | [b0, b1, b2, b3, b4, b5, b6, b7] =>
      toString (b0 + b1 * 0x100 + b2 * 0x10000 + b3 * 0x1000000 +
        b4 * 0x100000000 + b5 * 0x10000000000 + b6 * 0x1000000000000 +
        b7 * 0x100000000000000)
    | _ => "Invalid REG_DWORD"
  | .REG_MULTI_SZ | .REG_RESOURCE_LIST =>
    String.intercalate ", " ((reg_value.bytes.splitOn 0).filterMap from_utf8)
  | .REG_LINK | .REG_FULL_RESOURCE_DESCRIPTOR | .REG_RESOURCE_REQUIREMENTS_LIST =>
    winreg_display reg_value
  | .REG_NONE => "None"

/-- The registry root enumeration from `src/root.rs` (ten variants, with
discriminants 0 through 9 in declaration order). -/
inductive Root
  | HkeyClassesRoot
  | HkeyCurrentUser
  | HkeyLocalMachine
  | HkeyUsers
  | HkeyCurrentConfig
  | HkeyPerformanceData
  | HkeyPerformanceText
  | HkeyPerformanceNLSText
  | HkeyDynData
  | HkeyCurrentUserLocalSettings
deriving DecidableEq

/-- Embedding of the `Display` implementation for `Root` in `src/root.rs`. -/
def Root.name : Root → String
  | .HkeyClassesRoot => "HKEY_CLASSES_ROOT"
  | .HkeyCurrentUser => "HKEY_CURRENT_USER"
  | .HkeyLocalMachine => "HKEY_LOCAL_MACHINE"
  | .HkeyUsers => "HKEY_USERS"
  | .HkeyCurrentConfig => "HKEY_CURRENT_CONFIG"
  | .HkeyPerformanceData => "HKEY_PERFORMANCE_DATA"
  | .HkeyPerformanceText => "HKEY_PERFORMANCE_TEXT"
  | .HkeyPerformanceNLSText => "HKEY_PERFORMANCE_NLSTEXT"
  | .HkeyDynData => "HKEY_DYN_DATA"
  | .HkeyCurrentUserLocalSettings => "HKEY_CURRENT_USER_LOCAL_SETTINGS"

/-- Embedding of `Root::from_u8` from `src/root.rs`; the `u8` argument is
modelled as a `Nat` below 256, and the wildcard arm yields `none`. -/
def Root.from_u8 (value : Nat) : Option Root :=
  match value with
  | 0 => some .HkeyClassesRoot
  | 1 => some .HkeyCurrentUser
  | 2 => some .HkeyLocalMachine
  | 3 => some .HkeyUsers
  | 4 => some .HkeyCurrentConfig
  | 5 => some .HkeyPerformanceData
  | 6 => some .HkeyPerformanceText
  | 7 => some .HkeyPerformanceNLSText
  | 8 => some .HkeyDynData
  | 9 => some .HkeyCurrentUserLocalSettings
  | _ => none

/-- The `HKEY_*` handle constants of `winreg::enums` (64-bit `isize`
values modelled as `Int`). -/
def HKEY_CLASSES_ROOT : Int := 0x80000000

def HKEY_CURRENT_USER : Int := 0x80000001

def HKEY_LOCAL_MACHINE : Int := 0x80000002

def HKEY_USERS : Int := 0x80000003

def HKEY_PERFORMANCE_DATA : Int := 0x80000004

def HKEY_CURRENT_CONFIG : Int := 0x80000005

def HKEY_DYN_DATA : Int := 0x80000006

def HKEY_CURRENT_USER_LOCAL_SETTINGS : Int := 0x80000007

def HKEY_PERFORMANCE_TEXT : Int := 0x80000050

def HKEY_PERFORMANCE_NLSTEXT : Int := 0x80000060

/-- Embedding of `Root::from_isize` from `src/root.rs`. -/
def Root.from_isize (value : Int) : Option Root :=
  if value = HKEY_CLASSES_ROOT then some .HkeyClassesRoot
  else if value = HKEY_CURRENT_USER then some .HkeyCurrentUser
  else if value = HKEY_LOCAL_MACHINE then some .HkeyLocalMachine
  else if value = HKEY_USERS then some .HkeyUsers
  else if value = HKEY_CURRENT_CONFIG then some .HkeyCurrentConfig
  else if value = HKEY_PERFORMANCE_DATA then some .HkeyPerformanceData
  else if value = HKEY_PERFORMANCE_TEXT then some .HkeyPerformanceText
  else if value = HKEY_PERFORMANCE_NLSTEXT then some .HkeyPerformanceNLSText
  else if value = HKEY_DYN_DATA then some .HkeyDynData
  else if value = HKEY_CURRENT_USER_LOCAL_SETTINGS then some .HkeyCurrentUserLocalSettings
  else none

/-- Debounce window from `src/lib.rs`, in milliseconds. -/
def DEBOUNCE : Nat := 100

/-- Policy flag from `src/lib.rs`: substitute "(Default)" for blank value names. -/
def REGEDIT_OUTPUT_FOR_BLANK_NAMES : Bool := true

/-- Editor resolution modes from `src/lib.rs`. -/
inductive EditorMode
  | Add
  | Edit (original : String)
deriving DecidableEq

/-- State of the search-term tracker (`src/search_term_tracker.rs`): the
cursor, the last-change instant (modelled as a millisecond timestamp),
and the `BTreeSet<String>` of terms modelled as a sorted list. -/
structure SearchTermTracker where
  search_term_selected : Nat
  search_term_last_changed : Nat
  search_terms : List String
deriving DecidableEq

/-- Ordered insertion into a sorted duplicate-free list, modelling
`BTreeSet::insert` (string order is code-point lexicographic, matching
the byte order a Rust `BTreeSet<String>` uses on UTF-8). -/
def btreeset_insert (x : String) : List String → List String
  | [] => [x]
  | y :: ys =>
    if x < y then x :: y :: ys
    else if x = y then y :: ys
    else y :: btreeset_insert x ys

/-- Removal of an element, modelling `BTreeSet::remove`. -/
def btreeset_remove (x : String) (l : List String) : List String :=
  l.erase x

/-- Embedding of `SearchTermTracker::get_value_from_index`. -/
def SearchTermTracker.get_value_from_index (t : SearchTermTracker) (index : Nat) : Option String :=
  if t.search_terms.isEmpty then none
  else t.search_terms.get? index

/-- Embedding of `SearchTermTracker::get_value_at_current_index`. -/
def SearchTermTracker.get_value_at_current_index (t : SearchTermTracker) : Option String :=
  t.get_value_from_index t.search_term_selected

/-- The trailing loop of `SearchTermTracker::update`: scan the new set in
order and move the cursor to the first position holding `target` that
differs from the current selection (the source returns at that point;
when the position equals the current selection it only logs and keeps
scanning). -/
def reposition_scan (selected : Nat) (target : String) : Nat → List String → Nat
  | _, [] => selected
  | index, search_term :: rest =>
    if search_term = target then
      if selected ≠ index then index
      else reposition_scan selected target (index + 1) rest
    else reposition_scan selected target (index + 1) rest

/-- Embedding of `SearchTermTracker::update`. The early `return` that
discards the action when the cursor resolves to no value while the set is
non-empty is the `some t` branch; the `unwrap()` on the current value in
the `Edit` arm (reachable only when the set is empty) is modelled as
`none` (a panic). -/
def SearchTermTracker.update (t : SearchTermTracker) (editor_mode : EditorMode) (state : String) :
    Option SearchTermTracker :=
  let current_index_value := t.get_value_at_current_index
  if current_index_value.isNone ∧ 0 < t.search_terms.length then
    some t
  else
    match editor_mode with
    | .Add =>
      let search_terms := btreeset_insert state t.search_terms
      some (match current_index_value with
        | some v =>
          { t with search_terms := search_terms,
                   search_term_selected := reposition_scan t.search_term_selected v 0 search_terms }
        | none => { t with search_terms := search_terms })
    | .Edit original =>
      match current_index_value with
      | none => none
      | some cv =>
        let tracked := if cv = original then state else cv
        let search_terms := btreeset_insert state (btreeset_remove original t.search_terms)
        some { t with search_terms := search_terms,
                      search_term_selected := reposition_scan t.search_term_selected tracked 0 search_terms }

/-- Embedding of `SearchTermTracker::remove` from
`src/search_term_tracker.rs`: the source function body is empty, so it
returns the tracker unchanged. -/
def SearchTermTracker.remove (t : SearchTermTracker) (_term : String) : SearchTermTracker :=
  t

/-- Embedding of `SearchTermTracker::up`; `now` is the current instant in
milliseconds, so the debounce guard `elapsed() < DEBOUNCE` becomes
`now - last_changed < DEBOUNCE`. -/
def SearchTermTracker.up (t : SearchTermTracker) (now : Nat) : SearchTermTracker :=
  if now - t.search_term_last_changed < DEBOUNCE then t
  else
    let search_terms_len := t.search_terms.length
    if search_terms_len = 0 then t
    else
      let max_index := if 1 < search_terms_len then search_terms_len - 1 else search_terms_len
      let current := t.search_term_selected
      { t with
        search_term_selected := if current = 0 then max_index else current - 1,
        search_term_last_changed := now }

/-- Embedding of `SearchTermTracker::down`, with `now` as in `up`. -/
def SearchTermTracker.down (t : SearchTermTracker) (now : Nat) : SearchTermTracker :=
  if now - t.search_term_last_changed < DEBOUNCE then t
  else
    let search_terms_len := t.search_terms.length
    if search_terms_len = 0 then t
    else
      let max_index := if 1 < search_terms_len then search_terms_len - 1 else search_terms_len
      let current := t.search_term_selected
      { t with
        search_term_selected := if current + 1 ≤ max_index then current + 1 else 0,
        search_term_last_changed := now }

/-- Embedding of `WorkerManager::string_matches`. -/
def string_matches (search_terms : List String) (string : String) : Bool :=
  let string_lowercase := to_lowercase string
  search_terms.any (fun term => str_contains string_lowercase term)

/-- Embedding of `WorkerManager::any_string_matches`. -/
def any_string_matches (search_terms : List String) (string string2 : String) : Bool :=
  let string_lowercase := to_lowercase string
  let string2_lowercase := to_lowercase string2
  search_terms.any (fun term =>
    str_contains string_lowercase term || str_contains string2_lowercase term)

/-- Lowercasing of the constructor argument in `WorkerManager::new`. -/
def lowercased_terms (search_terms : List String) : List String :=
  search_terms.map to_lowercase

/-- A mock registry key: the callback sequences produced by `enum_keys`
(child names) and `enum_values` (name/value pairs), each callback either
a success or an error message. -/
structure RegistryKey where
  keys : List (Except String String)
  values : List (Except String (String × RegValue))

/-- A mock registry provider: `open_subkey_with_flags` on a (hive handle,
path) pair either opens a key or fails with an error message. -/
abbrev RegistryEnv := Int → String → Except String RegistryKey

/-- The mutable crawl data a worker touches while processing one item:
the shared queue, the results set, the errors set, and the two global
counters `KEY_COUNT` and `VALUE_COUNT`. -/
structure CrawlState where
  key_queue : List (Int × String)
  results : List String
  errors : List String
  key_count : Nat
  value_count : Nat

/-- Set insertion for the shared `BTreeSet`/`HashSet` collections; only
membership is observable in the claims. -/
def set_insert (x : String) (l : List String) : List String :=
  if x ∈ l then l else l ++ [x]

/-- The repeated `match Root::from_isize(reg_key)` / `"InvalidRoot"`
pattern of `feed_queue_and_process_values`. -/
def root_name_of (reg_key : Int) : String :=
  match Root.from_isize reg_key with
  | some root => root.name
  | none => "InvalidRoot"

/-- Embedding of `WorkerManager::feed_queue` (extend the queue at the back). -/
def feed_queue (st : CrawlState) (keys : List (Int × String)) : CrawlState :=
  { st with key_queue := st.key_queue ++ keys }

/-- One iteration of the child-key enumeration loop in
`feed_queue_and_process_values`: `KEY_COUNT` is incremented before the
callback result is inspected, successes are collected into the local
`key_paths` vector, and errors go to the errors set. -/
def process_key_result (reg_key : Int) (key_path : String)
    (acc : CrawlState × List (Int × String)) (key_result : Except String String) :
    CrawlState × List (Int × String) :=
  let st := { acc.1 with key_count := acc.1.key_count + 1 }
  match key_result with
  | .ok key_name => (st, acc.2 ++ [(reg_key, key_path ++ "\\" ++ key_name)])
  | .error err =>
    ({ st with errors := set_insert (key_path ++ ", Subkey error: \"" ++ err ++ "\"") st.errors },
     acc.2)

/-- One iteration of the value enumeration loop in
`feed_queue_and_process_values`: `VALUE_COUNT` is incremented before the
callback result is inspected; on success the value is stringified and, if
its name or data matches, a result line is inserted (with "(Default)"
substituted for a blank name); errors go to the errors set. -/
def process_value_result (search_terms : List String) (reg_key : Int) (key_path : String)
    (st : CrawlState) (value_result : Except String (String × RegValue)) : CrawlState :=
  let st := { st with value_count := st.value_count + 1 }
  match value_result with
  | .ok (value_name, reg_value) =>
    let vtype := reg_value.vtype
    let data := alt_reg_value_to_string reg_value
    if any_string_matches search_terms value_name data then
      let value_name :=
        if value_name = "" then
          if REGEDIT_OUTPUT_FOR_BLANK_NAMES then "(Default)" else value_name
        else value_name
      let root_name := root_name_of reg_key
      let line := root_name ++ "\\" ++ key_path ++ "\\" ++ value_name ++ " = \"" ++ data ++
        "\" (" ++ vtype.debugStr ++ ")"
      { st with results := set_insert line st.results }
    else st
  | .error err =>
    { st with errors := set_insert (key_path ++ ", Value error: \"" ++ err ++ "\"") st.errors }

/-- Embedding of `WorkerManager::feed_queue_and_process_values` over the
mock registry `env`: key-path match insertion, subkey open, child-key
enumeration feeding the queue, then value enumeration. The
`work_ready_for_processing.notify_waiters()` call has no effect on this
data and belongs to the engine transition system below. -/
def feed_queue_and_process_values (search_terms : List String) (env : RegistryEnv)
    (st : CrawlState) (reg_key : Int) (key_path : String) : CrawlState :=
  let st :=
    if string_matches search_terms key_path then
      { st with results := set_insert (root_name_of reg_key ++ "\\" ++ key_path) st.results }
    else st
  match env reg_key key_path with
  | .error err =>
    let line := key_path ++ ": " ++ root_name_of reg_key ++ ", Key error: \"" ++ err ++ "\""
    { st with errors := set_insert line st.errors }
  | .ok registry_key =>
    let pass := registry_key.keys.foldl (process_key_result reg_key key_path) (st, [])
    let st := feed_queue pass.1 pass.2
    registry_key.values.foldl (process_value_result search_terms reg_key key_path) st

/-- Where a worker task is in the loops of `run_thread` / `get_work`:
`popping` is about to take the queue lock; `processing` holds an item;
`waiting` has incremented `threads_waiting_for_work` and is parked in the
`select!`; `wokenWork` has been woken by `work_ready_for_processing` but
has not yet resumed at the decrement; `exited` observed `no_work_left`
and returned `None` (without decrementing). -/
inductive WorkerPhase
  | popping
  | processing (item : Int × String)
  | waiting
  | wokenWork
  | exited
deriving DecidableEq

/-- Effect of `work_ready_for_processing.notify_waiters()` on one worker. -/
def wake_work : WorkerPhase → WorkerPhase
  | .waiting => .wokenWork
  | p => p

/-- Effect of `no_work_left.notify_waiters()` on one worker: a waiter
resumes in the `no_work_left` arm and returns `None`. -/
def wake_exit : WorkerPhase → WorkerPhase
  | .waiting => .exited
  | p => p

/-- Shared state of one `WorkerManager` run: the worker count
(`threads`), the phase of each spawned worker, the queue, the
`threads_waiting_for_work` counter, whether `run()` has returned
(`done`), and the shared stop flag stored by the manager. -/
structure EngineState where
  threads : Nat
  workers : List WorkerPhase
  key_queue : List (Int × String)
  threads_waiting_for_work : Nat
  done : Bool
  stop : Bool
deriving DecidableEq

/-- Interleaving semantics of `run` / `run_thread` / `get_work` from
`src/worker_manager.rs`, one constructor per atomic action. `children`
abstracts the child items a processed work item feeds back into the
queue. The supervisor polling loop contributes the two guarded steps
matching its body exactly: both fire only when
`threads_waiting_for_work == threads`, and the exit step additionally
requires an empty queue. The supervisor reads no other field — in
particular not `stop`, which only the external UI mutates (`set_stop`). -/
inductive EngineStep (children : Int × String → List (Int × String)) :
    EngineState → EngineState → Prop
  | pop_ok (s : EngineState) (w : Nat) (item : Int × String) (rest : List (Int × String)) :
      s.workers.get? w = some .popping →
      s.key_queue = item :: rest →
      EngineStep children s
        { s with workers := s.workers.set w (.processing item), key_queue := rest }
  | pop_empty (s : EngineState) (w : Nat) :
      s.workers.get? w = some .popping →
      s.key_queue = [] →
      EngineStep children s
        { s with workers := s.workers.set w .waiting,
                 threads_waiting_for_work := s.threads_waiting_for_work + 1 }
  | finish_item (s : EngineState) (w : Nat) (item : Int × String) :
      s.workers.get? w = some (.processing item) →
      EngineStep children s
        { s with workers := (s.workers.set w .popping).map wake_work,
                 key_queue := s.key_queue ++ children item }
  | resume_work (s : EngineState) (w : Nat) :
      s.workers.get? w = some .wokenWork →
      EngineStep children s
        { s with workers := s.workers.set w .popping,
                 threads_waiting_for_work := s.threads_waiting_for_work - 1 }
  | supervisor_quiescent (s : EngineState) :
      s.done = false →
      s.threads_waiting_for_work = s.threads →
      s.key_queue = [] →
      EngineStep children s
        { s with workers := s.workers.map wake_exit, done := true }
  | supervisor_recover (s : EngineState) :
      s.done = false →
      s.threads_waiting_for_work = s.threads →
      s.key_queue ≠ [] →
      EngineStep children s
        { s with workers := s.workers.map wake_work }
  | set_stop (s : EngineState) :
      EngineStep children s { s with stop := true }

/-- Number of child-key enumeration callbacks `enum_keys` yields for a
work item (successes and errors alike); zero when the subkey fails to open. -/
def key_callback_count (env : RegistryEnv) (reg_key : Int) (key_path : String) : Nat :=
  match env reg_key key_path with
  | .ok k => k.keys.length
  | .error _ => 0

/-- Number of value enumeration callbacks `enum_values` yields for a
work item; zero when the subkey fails to open. -/
def value_callback_count (env : RegistryEnv) (reg_key : Int) (key_path : String) : Nat :=
  match env reg_key key_path with
  | .ok k => k.values.length
  | .error _ => 0

theorem data_append (a b : String) : (a ++ b).data = a.data ++ b.data := by
  cases a; cases b; rfl

theorem to_lowercase_append (a b : String) :
    to_lowercase (a ++ b) = to_lowercase a ++ to_lowercase b := by
  cases a with
  | mk la =>
    cases b with
    | mk lb => exact congrArg String.mk (List.map_append Char.toLower la lb)

theorem str_contains_append_right (a b t : String) (h : str_contains b t = true) :
    str_contains (a ++ b) t = true := by
  unfold str_contains at h ⊢
  rw [decide_eq_true_eq] at h ⊢
  rw [data_append]
  exact h.trans (List.suffix_append a.data b.data).isInfix

theorem string_matches_exists (search_terms : List String) (s : String)
    (h : string_matches search_terms s = true) :
    ∃ term ∈ search_terms, str_contains (to_lowercase s) term = true := by
  simp only [string_matches, List.any_eq_true] at h
  exact h

theorem mem_set_insert (r x : String) (l : List String) (h : r ∈ set_insert x l) :
    r = x ∨ r ∈ l := by
  by_cases hx : x ∈ l
  · simp only [set_insert, if_pos hx] at h
    exact Or.inr h
  · simp only [set_insert, if_neg hx, List.mem_append, List.mem_singleton] at h
    exact h.symm.imp id id

/-- C10: if the search-term set is non-empty but the cursor does not
resolve to an element, `SearchTermTracker::update` discards the Add/Edit
action entirely, returning the tracker (set and cursor) unchanged. -/
theorem update_discards_on_unresolvable_cursor (t : SearchTermTracker)
    (editor_mode : EditorMode) (state : String)
    (hne : t.search_terms ≠ []) (hcur : t.get_value_at_current_index = none) :
    t.update editor_mode state = some t := by
  have hlen : 0 < t.search_terms.length := List.length_pos.mpr hne
  simp [SearchTermTracker.update, hcur, hlen]

theorem update_discards_on_unresolvable_cursor_witness :
    ((⟨3, 0, ["a"]⟩ : SearchTermTracker).search_terms ≠ [] ∧
     (⟨3, 0, ["a"]⟩ : SearchTermTracker).get_value_at_current_index = none) ∧
    SearchTermTracker.update ⟨3, 0, ["a"]⟩ .Add "b" = some ⟨3, 0, ["a"]⟩ :=
  ⟨⟨by decide, by decide⟩,
   update_discards_on_unresolvable_cursor ⟨3, 0, ["a"]⟩ .Add "b" (by decide) (by decide)⟩

/-- C5: evaluation at the failing input. Starting from the empty
search-term set, `update(Add, "a")` inserts the term and the subsequent
`remove("a")` leaves it in place (the source body of `remove` is empty),
so the set ends as containing "a" instead of returning to its prior empty
contents. -/
theorem add_remove_not_round_trip :
    (SearchTermTracker.update ⟨0, 0, []⟩ .Add "a").map
      (fun t => (t.remove "a").search_terms) = some ["a"] ∧
    (["a"] : List String) ≠ [] := by
  exact ⟨by decide, by decide⟩

/-- C6: evaluation at the failing input. With exactly one search term and
the cursor at 0, both `up` and `down` (debounce elapsed) set the cursor
to 1, which is outside the range permitted by the invariant for a
one-element set; reads at index 1 then return absent. -/
theorem singleton_cursor_moves_out_of_range :
    (SearchTermTracker.up ⟨0, 0, ["a"]⟩ 1000).search_term_selected = 1 ∧
    (SearchTermTracker.down ⟨0, 0, ["a"]⟩ 1000).search_term_selected = 1 ∧
    ¬ 1 ≤ (["a"] : List String).length - 1 ∧
    (SearchTermTracker.get_value_from_index ⟨1, 1000, ["a"]⟩ 1) = none := by
  exact ⟨by decide, by decide, by decide, by decide⟩

/-- C7 counterexample: on the REG_MULTI_SZ bytes "a\0b\0c\0" the code
does not return "a, b, c" (the trailing NUL produces a final empty
segment, so the join carries a trailing separator). -/
theorem multi_sz_not_plain_join :
    alt_reg_value_to_string ⟨.REG_MULTI_SZ, [97, 0, 98, 0, 99, 0]⟩ ≠ "a, b, c" := by
  decide

/-- C7 (amended): on bytes "a\0b\0c\0" the MULTI_SZ stringification
returns "a, b, c, " — the NUL-separated segments (including the trailing
empty one) decoded as UTF-8 and joined with ", " — and with term "b" the
value still matches. -/
theorem multi_sz_rendering_with_trailing_separator :
    alt_reg_value_to_string ⟨.REG_MULTI_SZ, [97, 0, 98, 0, 99, 0]⟩ = "a, b, c, " ∧
    string_matches ["b"]
      (alt_reg_value_to_string ⟨.REG_MULTI_SZ, [97, 0, 98, 0, 99, 0]⟩) = true := by
  exact ⟨by decide, by decide⟩

/-- C8: evaluation at the failing input. A REG_QWORD value whose blob has
the wrong length renders as "Invalid REG_DWORD", not "Invalid REG_QWORD"
(the error string was copy-pasted from the REG_DWORD branch); the two
DWORD kinds do name their own kind. -/
theorem malformed_qword_renders_invalid_dword :
    alt_reg_value_to_string ⟨.REG_QWORD, []⟩ = "Invalid REG_DWORD" ∧
    alt_reg_value_to_string ⟨.REG_QWORD, []⟩ ≠ "Invalid REG_QWORD" ∧
    alt_reg_value_to_string ⟨.REG_DWORD, []⟩ = "Invalid REG_DWORD" ∧
    alt_reg_value_to_string ⟨.REG_DWORD_BIG_ENDIAN, []⟩ = "Invalid REG_DWORD_BIG_ENDIAN" := by
  exact ⟨by decide, by decide, by decide, by decide⟩

/-- C9 counterexample: `Root::from_u8` does not return an absent value
for the tag 5, which lies outside [0,4]: the enumeration has ten
variants, and 5 maps to HkeyPerformanceData. -/
theorem from_u8_five_not_none :
    Root.from_u8 5 = some Root.HkeyPerformanceData ∧ Root.from_u8 5 ≠ none := by
  exact ⟨by decide, by decide⟩

/-- C9 (amended): `Root::from_u8` returns a variant exactly for the tags
in [0,9] (the five standard roots on [0,4] plus the five extended roots
on [5,9]) and an absent value for every other u8 input. -/
theorem from_u8_total_on_ten_tags (value : Nat) (h : value < 256) :
    (Root.from_u8 value).isSome ↔ value ≤ 9 := by
  revert h
  revert value
  decide

theorem from_u8_total_on_ten_tags_witness :
    ((7 : Nat) < 256 ∧ ((Root.from_u8 7).isSome ↔ 7 ≤ 9)) ∧
    ((200 : Nat) < 256 ∧ ((Root.from_u8 200).isSome ↔ 200 ≤ 9)) :=
  ⟨⟨by decide, from_u8_total_on_ten_tags 7 (by decide)⟩,
   ⟨by decide, from_u8_total_on_ten_tags 200 (by decide)⟩⟩

theorem feed_queue_results (st : CrawlState) (keys : List (Int × String)) :
    (feed_queue st keys).results = st.results := rfl

theorem feed_queue_key_count (st : CrawlState) (keys : List (Int × String)) :
    (feed_queue st keys).key_count = st.key_count := rfl

theorem feed_queue_value_count (st : CrawlState) (keys : List (Int × String)) :
    (feed_queue st keys).value_count = st.value_count := rfl

theorem process_keys_results (reg_key : Int) (key_path : String)
    (l : List (Except String String)) (acc : CrawlState × List (Int × String)) :
    ((l.foldl (process_key_result reg_key key_path) acc).1).results = acc.1.results := by
  induction l generalizing acc with
  | nil => rfl
  | cons head tail ih =>
    rw [List.foldl_cons, ih]
    cases head <;> rfl

theorem process_keys_key_count (reg_key : Int) (key_path : String)
    (l : List (Except String String)) (acc : CrawlState × List (Int × String)) :
    ((l.foldl (process_key_result reg_key key_path) acc).1).key_count =
      acc.1.key_count + l.length := by
  induction l generalizing acc with
  | nil => rfl
  | cons head tail ih =>
    rw [List.foldl_cons, ih]
    cases head <;> simp [process_key_result] <;> omega

theorem process_keys_value_count (reg_key : Int) (key_path : String)
    (l : List (Except String String)) (acc : CrawlState × List (Int × String)) :
    ((l.foldl (process_key_result reg_key key_path) acc).1).value_count =
      acc.1.value_count := by
  induction l generalizing acc with
  | nil => rfl
  | cons head tail ih =>
    rw [List.foldl_cons, ih]
    cases head <;> rfl

theorem process_value_result_value_count (search_terms : List String) (reg_key : Int)
    (key_path : String) (st : CrawlState) (vr : Except String (String × RegValue)) :
    (process_value_result search_terms reg_key key_path st vr).value_count =
      st.value_count + 1 := by
  cases vr with
  | error err => rfl
  | ok p =>
    obtain ⟨value_name, reg_value⟩ := p
    simp only [process_value_result]
    split <;> rfl

theorem process_value_result_key_count (search_terms : List String) (reg_key : Int)
    (key_path : String) (st : CrawlState) (vr : Except String (String × RegValue)) :
    (process_value_result search_terms reg_key key_path st vr).key_count = st.key_count := by
  cases vr with
  | error err => rfl
  | ok p =>
    obtain ⟨value_name, reg_value⟩ := p
    simp only [process_value_result]
    split <;> rfl

theorem process_value_result_results (search_terms : List String) (reg_key : Int)
    (key_path : String) (st : CrawlState) (vr : Except String (String × RegValue)) (r : String)
    (h : r ∈ (process_value_result search_terms reg_key key_path st vr).results) :
    r ∈ st.results ∨ ∃ name reg_value, vr = Except.ok (name, reg_value) ∧
      any_string_matches search_terms name (alt_reg_value_to_string reg_value) = true := by
  cases vr with
  | error err => exact Or.inl h
  | ok p =>
    obtain ⟨value_name, reg_value⟩ := p
    by_cases hm :
        any_string_matches search_terms value_name (alt_reg_value_to_string reg_value) = true
    · simp only [process_value_result, hm, if_true] at h
      rcases mem_set_insert _ _ _ h with rfl | hr
      · exact Or.inr ⟨value_name, reg_value, rfl, hm⟩
      · exact Or.inl hr
    · simp only [process_value_result, eq_false_of_ne_true hm, Bool.false_eq_true,
        if_false] at h
      exact Or.inl h

theorem process_values_value_count (search_terms : List String) (reg_key : Int)
    (key_path : String) (l : List (Except String (String × RegValue))) (st : CrawlState) :
    (l.foldl (process_value_result search_terms reg_key key_path) st).value_count =
      st.value_count + l.length := by
  induction l generalizing st with
  | nil => rfl
  | cons head tail ih =>
    rw [List.foldl_cons, ih, process_value_result_value_count]
    simp [List.length_cons]
    omega

theorem process_values_key_count (search_terms : List String) (reg_key : Int)
    (key_path : String) (l : List (Except String (String × RegValue))) (st : CrawlState) :
    (l.foldl (process_value_result search_terms reg_key key_path) st).key_count =
      st.key_count := by
  induction l generalizing st with
  | nil => rfl
  | cons head tail ih =>
    rw [List.foldl_cons, ih, process_value_result_key_count]

theorem process_values_results_fold (search_terms : List String) (reg_key : Int)
    (key_path : String) (l : List (Except String (String × RegValue))) (st : CrawlState)
    (r : String)
    (h : r ∈ (l.foldl (process_value_result search_terms reg_key key_path) st).results) :
    r ∈ st.results ∨ ∃ name reg_value, Except.ok (name, reg_value) ∈ l ∧
      any_string_matches search_terms name (alt_reg_value_to_string reg_value) = true := by
  induction l generalizing st with
  | nil => exact Or.inl h
  | cons head tail ih =>
    rw [List.foldl_cons] at h
    rcases ih _ h with h1 | ⟨name, rv, hmem, hmatch⟩
    · rcases process_value_result_results _ _ _ _ _ _ h1 with h2 | ⟨name, rv, heq, hmatch⟩
      · exact Or.inl h2
      · refine Or.inr ⟨name, rv, ?_, hmatch⟩
        rw [← heq]
        exact List.mem_cons_self _ _
    · exact Or.inr ⟨name, rv, List.mem_cons_of_mem _ hmem, hmatch⟩

/-- C3: every string inserted into the results set while processing a
work item either (a) has its lowercased form containing some (lowercased)
search term — the key-match insertion formatted root\path — or (b) was
produced from a registry value of that key whose name or stringified data
contains some term, matching being lowercased-substring containment. -/
theorem result_soundness (search_terms : List String) (env : RegistryEnv) (st : CrawlState)
    (reg_key : Int) (key_path : String) (r : String)
    (hr : r ∈ (feed_queue_and_process_values search_terms env st reg_key key_path).results) :
    r ∈ st.results ∨
    (∃ term ∈ search_terms, str_contains (to_lowercase r) term = true) ∨
    (∃ k name reg_value, env reg_key key_path = Except.ok k ∧
      Except.ok (name, reg_value) ∈ k.values ∧
      any_string_matches search_terms name (alt_reg_value_to_string reg_value) = true) := by
  have stage1 : ∀ s : String, s ∈ (if string_matches search_terms key_path then
      { st with results := set_insert (root_name_of reg_key ++ "\\" ++ key_path) st.results }
      else st).results →
      s ∈ st.results ∨ (∃ term ∈ search_terms, str_contains (to_lowercase s) term = true) := by
    intro s hs
    by_cases hkm : string_matches search_terms key_path = true
    · rw [if_pos hkm] at hs
      rcases mem_set_insert _ _ _ hs with rfl | hmem
      · right
        obtain ⟨term, htm, htc⟩ := string_matches_exists _ _ hkm
        refine ⟨term, htm, ?_⟩
        rw [to_lowercase_append]
        exact str_contains_append_right _ _ _ htc
      · exact Or.inl hmem
    · rw [if_neg hkm] at hs
      exact Or.inl hs
  cases henv : env reg_key key_path with
  | error err =>
    simp only [feed_queue_and_process_values, henv] at hr
    rcases stage1 r hr with h | h
    · exact Or.inl h
    · exact Or.inr (Or.inl h)
  | ok registry_key =>
    simp only [feed_queue_and_process_values, henv] at hr
    rcases process_values_results_fold _ _ _ _ _ _ hr with h1 | ⟨name, rv, hmem, hmatch⟩
    · simp only [feed_queue_results, process_keys_results] at h1
      rcases stage1 r h1 with h | h
      · exact Or.inl h
      · exact Or.inr (Or.inl h)
    · exact Or.inr (Or.inr ⟨registry_key, name, rv, rfl, hmem, hmatch⟩)

theorem result_soundness_witness :
    ("HKEY_LOCAL_MACHINE\\Software\\Chrome" ∈
      (feed_queue_and_process_values ["chrome"] (fun _ _ => Except.error "denied")
        ⟨[], [], [], 0, 0⟩ 2147483650 "Software\\Chrome").results) ∧
    ("HKEY_LOCAL_MACHINE\\Software\\Chrome" ∈ (⟨[], [], [], 0, 0⟩ : CrawlState).results ∨
     (∃ term ∈ ["chrome"],
        str_contains (to_lowercase "HKEY_LOCAL_MACHINE\\Software\\Chrome") term = true) ∨
     (∃ k name reg_value,
        (fun _ _ => Except.error "denied" : RegistryEnv) 2147483650 "Software\\Chrome" =
          Except.ok k ∧
        Except.ok (name, reg_value) ∈ k.values ∧
        any_string_matches ["chrome"] name (alt_reg_value_to_string reg_value) = true)) :=
  ⟨by decide,
   result_soundness ["chrome"] (fun _ _ => Except.error "denied") ⟨[], [], [], 0, 0⟩
     2147483650 "Software\\Chrome" "HKEY_LOCAL_MACHINE\\Software\\Chrome" (by decide)⟩

/-- C4 counterexample: a work item whose child-key enumeration yields one
error callback and whose value enumeration yields one error callback
still increments both counters to 1, though the number of successful
callbacks of each kind is 0; the increments happen before the callback
result is inspected. -/
theorem counters_include_error_callbacks :
    (feed_queue_and_process_values []
      (fun _ _ => Except.ok ⟨[Except.error "e"], [Except.error "f"]⟩)
      ⟨[], [], [], 0, 0⟩ 2 "K").key_count = 1 ∧
    (feed_queue_and_process_values []
      (fun _ _ => Except.ok ⟨[Except.error "e"], [Except.error "f"]⟩)
      ⟨[], [], [], 0, 0⟩ 2 "K").value_count = 1 ∧
    ([Except.error "e"] : List (Except String String)).countP (fun c => c.isOk) = 0 ∧
    ([Except.error "f"] : List (Except String (String × RegValue))).countP (fun c => c.isOk) = 0 ∧
    (1 : Nat) ≠ 0 := by
  exact ⟨by decide, by decide, by decide, by decide, by decide⟩

/-- C4 (amended): at the end of processing a work item, `KEY_COUNT` has
grown by the total number of child-key enumeration callbacks (successes
and errors alike) and `VALUE_COUNT` by the total number of value
enumeration callbacks, both zero when the subkey fails to open. -/
theorem counters_count_all_callbacks (search_terms : List String) (env : RegistryEnv)
    (st : CrawlState) (reg_key : Int) (key_path : String) :
    (feed_queue_and_process_values search_terms env st reg_key key_path).key_count =
      st.key_count + key_callback_count env reg_key key_path ∧
    (feed_queue_and_process_values search_terms env st reg_key key_path).value_count =
      st.value_count + value_callback_count env reg_key key_path := by
  cases henv : env reg_key key_path with
  | error err =>
    by_cases hkm : string_matches search_terms key_path = true <;>
      simp [feed_queue_and_process_values, key_callback_count, value_callback_count, henv, hkm]
  | ok registry_key =>
    by_cases hkm : string_matches search_terms key_path = true <;>
      simp [feed_queue_and_process_values, key_callback_count, value_callback_count, henv, hkm,
        process_values_key_count, process_values_value_count, feed_queue_key_count,
        feed_queue_value_count, process_keys_key_count, process_keys_value_count]

/-- C1: when `run()` returns — the transition that flips `done`, firing
`no_work_left` and breaking out of the supervisor loop — the
`threads_waiting_for_work` counter equals the worker count `threads` and
the key queue is empty, for every step of every execution of the engine. -/
theorem quiescence_on_return (children : Int × String → List (Int × String))
    (s s2 : EngineState) (hstep : EngineStep children s s2)
    (hbefore : s.done = false) (hafter : s2.done = true) :
    s2.threads_waiting_for_work = s2.threads ∧ s2.key_queue = [] := by
  cases hstep <;> simp_all

theorem quiescence_on_return_witness :
    (EngineStep (fun _ => []) ⟨1, [.waiting], [], 1, false, false⟩
        ⟨1, [.exited], [], 1, true, false⟩ ∧
      (⟨1, [.waiting], [], 1, false, false⟩ : EngineState).done = false ∧
      (⟨1, [.exited], [], 1, true, false⟩ : EngineState).done = true) ∧
    ((⟨1, [.exited], [], 1, true, false⟩ : EngineState).threads_waiting_for_work =
        (⟨1, [.exited], [], 1, true, false⟩ : EngineState).threads ∧
      (⟨1, [.exited], [], 1, true, false⟩ : EngineState).key_queue = []) := by
  have hstep : EngineStep (fun _ => ([] : List (Int × String)))
      ⟨1, [.waiting], [], 1, false, false⟩ ⟨1, [.exited], [], 1, true, false⟩ :=
    EngineStep.supervisor_quiescent ⟨1, [.waiting], [], 1, false, false⟩ rfl rfl rfl
  exact ⟨⟨hstep, rfl, rfl⟩, quiescence_on_return _ _ _ hstep rfl rfl⟩

/-- C2: evaluation at the failing input. In a mid-crawl state whose stop
flag is already true (queue non-empty, one worker processing, no
waiters), no engine step can make `run()` return: every successor state
still has `done = false`, because the supervisor's only exit transition
is guarded by full quiescence and reads no stop flag at all. -/
theorem stop_not_observed_by_supervisor (s2 : EngineState)
    (hstep : EngineStep (fun _ => [])
      ⟨1, [.processing (2, "K")], [(2, "L")], 0, false, true⟩ s2) :
    s2.done = false := by
  cases hstep <;> simp_all

theorem stop_not_observed_by_supervisor_witness :
    EngineStep (fun _ => []) ⟨1, [.processing (2, "K")], [(2, "L")], 0, false, true⟩
      ⟨1, [.popping], [(2, "L")], 0, false, true⟩ ∧
    (⟨1, [.popping], [(2, "L")], 0, false, true⟩ : EngineState).done = false := by
  have hstep : EngineStep (fun _ => ([] : List (Int × String)))
      ⟨1, [.processing (2, "K")], [(2, "L")], 0, false, true⟩
      ⟨1, [.popping], [(2, "L")], 0, false, true⟩ :=
    EngineStep.finish_item _ 0 (2, "K") rfl
  exact ⟨hstep, stop_not_observed_by_supervisor _ hstep⟩
